import Mathlib

/-!
Shallow embedding of the collection-tracker core logic (aggregation,
edit-audit, report formatting, export projection) of the card collection
tracker repository, with theorems checking the specification's claims.

Numbers: the source manipulates JS numbers; quantities are integers
(produced by `parseInt(x) || 0` and Firestore reads defaulted with
`|| 0`), modelled as ℤ, and percentages are modelled as exact rationals
(ℚ).  `Number.prototype.toFixed` rounds half away from zero; it is
modelled by `roundAway`.
-/

namespace CardTracker

/-- JS `toFixed`-style rounding to the nearest integer, halves away from
zero. -/
def roundAway (q : ℚ) : ℤ :=
  if 0 ≤ q then ⌊q + 1/2⌋ else -⌊-q + 1/2⌋

/-- JS `x.toFixed(0)`: render a number rounded to an integer. -/
def toFixed0 (q : ℚ) : String :=
  toString (roundAway q)

/-- JS `x.toFixed(1)`: render a number with exactly one decimal digit
(round half away from zero in the tenths place). -/
def toFixed1 (q : ℚ) : String :=
  let n := roundAway (q * 10)
  if n < 0 then
    "-" ++ toString ((-n) / 10) ++ "." ++ toString ((-n) % 10)
  else
    toString (n / 10) ++ "." ++ toString (n % 10)

/-- Decimal digit run folded to a natural number
(`parseInt` digit accumulation). -/
def digitsToNat (cs : List Char) : ℕ :=
  cs.foldl (fun a c => a * 10 + (c.toNat - 48)) 0

/-- JS `parseInt(s)` on the decimal strings this UI produces: skip
leading whitespace, read an optional sign and a leading run of decimal
digits; `none` models `NaN` (no digits found). -/
def parseIntJS (s : String) : Option ℤ :=
  let cs := s.data.dropWhile (fun c => c = ' ' ∨ c = '\t' ∨ c = '\n' ∨ c = '\r')
  match cs with
  | '-' :: rest =>
    let ds := rest.takeWhile Char.isDigit
    if ds.isEmpty then none else some (-(digitsToNat ds : ℤ))
  | '+' :: rest =>
    let ds := rest.takeWhile Char.isDigit
    if ds.isEmpty then none else some ((digitsToNat ds : ℤ))
  | rest =>
    let ds := rest.takeWhile Char.isDigit
    if ds.isEmpty then none else some ((digitsToNat ds : ℤ))

/-- Coercion `parseInt(s) || 0`: `NaN` is falsy, so a failed parse and a parsed 0
both coerce to 0. -/
def parseIntOr0 (s : String) : ℤ :=
  match parseIntJS s with
  | none => 0
  | some n => n

/-! ## StatCard threshold colors (src/components/StatCard.tsx) -/

/-- Function `getAchievementColor` from StatCard: text color for a percent. -/
def getAchievementColor (percent : ℚ) : String :=
  if percent < 70 then "text-red-600"
  else if percent ≤ 90 then "text-yellow-600"
  else "text-green-600"

/-- Function `getAchievementBgColor` from StatCard: badge color for a percent. -/
def getAchievementBgColor (percent : ℚ) : String :=
  if percent < 70 then "bg-red-100 text-red-800"
  else if percent ≤ 90 then "bg-yellow-100 text-yellow-800"
  else "bg-green-100 text-green-800"

/-- The spec's three-way threshold classification. -/
inductive ThreeWay where
  | low
  | medium
  | high
deriving DecidableEq

/-- The spec's words, for comparison with the code's classification
sites: low when p < 70, medium when 70 ≤ p ≤ 90, high when p > 90. -/
def specClassify (p : ℚ) : ThreeWay :=
  if p < 70 then ThreeWay.low
  else if p ≤ 90 then ThreeWay.medium
  else ThreeWay.high

/-! ## Telegram report formatter (src/utils/telegram.ts) -/

/-- One branch's summary line input to `formatSummaryReport`. -/
structure BranchSummary where
  branchName : String
  hasEntry : Bool
  totalTarget : ℤ
  totalAch : ℤ
  executiveCount : ℤ
deriving DecidableEq

/-- The `percent` string of a branch line:
`s.totalTarget > 0 ? ((s.totalAch / s.totalTarget) * 100).toFixed(0) : '0'`. -/
def summaryPercentStr (s : BranchSummary) : String :=
  if s.totalTarget > 0 then toFixed0 ((s.totalAch : ℚ) / (s.totalTarget : ℚ) * 100)
  else "0"

/-- Value `Number(percent)` for the branch line: the numeric value of the
`toFixed(0)` string, i.e. the rounded percent (0 when the target is 0). -/
def summaryPercentNum (s : BranchSummary) : ℤ :=
  if s.totalTarget > 0 then roundAway ((s.totalAch : ℚ) / (s.totalTarget : ℚ) * 100)
  else 0

/-- The status emoji of a branch line:
`Number(percent) >= 90 ? '🟢' : Number(percent) >= 70 ? '🟡' : '🔴'`. -/
def branchEmoji (s : BranchSummary) : String :=
  if summaryPercentNum s ≥ 90 then "🟢"
  else if summaryPercentNum s ≥ 70 then "🟡"
  else "🔴"

/-- Lexicographic comparison of character lists (the model of
`localeCompare`-driven ordering: character-by-character, shorter run
first on a tie). -/
def lexLe : List Char → List Char → Bool
  | [], _ => true
  | _ :: _, [] => false
  | a :: as, b :: bs =>
    if a < b then true else if b < a then false else lexLe as bs

/-- Comparison `a.localeCompare(b) <= 0`, modelled as lexicographic string
comparison. -/
def strLe (a b : String) : Bool :=
  lexLe a.data b.data

/-- Sorting `[...summaries].sort((a, b) => a.branchName.localeCompare(b.branchName))`;
JS `Array.prototype.sort` is stable, modelled by a stable merge sort. -/
def sortedSummaries (summaries : List BranchSummary) : List BranchSummary :=
  summaries.mergeSort (fun a b => strLe a.branchName b.branchName)

/-- Filter `sortedSummaries.filter(s => s.hasEntry)`. -/
def enteredOf (summaries : List BranchSummary) : List BranchSummary :=
  (sortedSummaries summaries).filter (fun s => s.hasEntry)

/-- Filter `sortedSummaries.filter(s => !s.hasEntry)`. -/
def notEnteredOf (summaries : List BranchSummary) : List BranchSummary :=
  (sortedSummaries summaries).filter (fun s => !s.hasEntry)

/-- Sum `entered.reduce((sum, s) => sum + s.totalTarget, 0)`. -/
def reportTotalTarget (summaries : List BranchSummary) : ℤ :=
  (enteredOf summaries).foldl (fun sum s => sum + s.totalTarget) 0

/-- Sum `entered.reduce((sum, s) => sum + s.totalAch, 0)`. -/
def reportTotalAch (summaries : List BranchSummary) : ℤ :=
  (enteredOf summaries).foldl (fun sum s => sum + s.totalAch) 0

/-- Function `formatSummaryReport(date, summaries)`: the Telegram daily report
text, built exactly as in src/utils/telegram.ts. -/
def formatSummaryReport (date : String) (summaries : List BranchSummary) : String :=
  let entered := enteredOf summaries
  let notEntered := notEnteredOf summaries
  let totalTarget := reportTotalTarget summaries
  let totalAch := reportTotalAch summaries
  let overallPercent :=
    if totalTarget > 0 then toFixed1 ((totalAch : ℚ) / (totalTarget : ℚ) * 100) else "0"
  let header := "📊 <b>Daily Collection Report</b>\n📅 Date: " ++ date ++ "\n\n"
  let enteredSection :=
    "✅ <b>Branches with Entry (" ++ toString entered.length ++ ")</b>\n" ++
    (if entered.length = 0 then "   No entries yet\n"
     else String.join (entered.map (fun s =>
       "   " ++ branchEmoji s ++ " " ++ s.branchName ++ ": " ++ toString s.totalAch ++
       "/" ++ toString s.totalTarget ++ " (" ++ summaryPercentStr s ++ "%)\n")))
  let notEnteredSection :=
    "\n❌ <b>Branches without Entry (" ++ toString notEntered.length ++ ")</b>\n" ++
    (if notEntered.length = 0 then "   All branches have entered!\n"
     else String.join (notEntered.map (fun s => "   ⚠️ " ++ s.branchName ++ "\n")))
  let overallSection :=
    "\n📈 <b>Overall Summary</b>\n   Total Target: " ++ toString totalTarget ++
    "\n   Total ACH: " ++ toString totalAch ++
    "\n   Achievement: " ++ overallPercent ++
    "%\n   Branches Reported: " ++ toString entered.length ++ "/" ++
    toString summaries.length
  header ++ enteredSection ++ notEnteredSection ++ overallSection

/-! ## Dashboard totals (src/pages/Dashboard.tsx, lines 74–78) -/

/-- A daily entry as the Dashboard reads it. -/
structure DailyEntryRow where
  executiveId : String
  executiveName : String
  targetQty : ℤ
  achQty : ℤ
  cashQty : ℤ
deriving DecidableEq

/-- The Dashboard's derived summary values. -/
structure Summary where
  totalTarget : ℤ
  totalAch : ℤ
  totalCash : ℤ
  balance : ℤ
  achievementPercent : ℚ
deriving DecidableEq

/-- The Dashboard totals computation over the fetched entries. -/
def summarizeWindow (entries : List DailyEntryRow) : Summary :=
  let totalTarget := entries.foldl (fun sum d => sum + d.targetQty) 0
  let totalAch := entries.foldl (fun sum d => sum + d.achQty) 0
  let totalCash := entries.foldl (fun sum d => sum + d.cashQty) 0
  { totalTarget := totalTarget
    totalAch := totalAch
    totalCash := totalCash
    balance := totalTarget - totalAch
    achievementPercent :=
      if totalTarget > 0 then (totalAch : ℚ) / (totalTarget : ℚ) * 100 else 0 }

/-! ## Edit history (src/pages/Entry.tsx handleSave,
src/pages/Admin.tsx handleSaveEdit) -/

/-- One audit record of the `editHistory` list. The timestamp
(`editedAt`, a `new Date()` at save time) is modelled as an integer
instant. -/
structure EditRecord where
  fieldName : String
  oldValue : ℤ
  newValue : ℤ
  editedAt : ℤ
  editedBy : String
deriving DecidableEq

/-- Today's stored entry for one executive, as Entry.tsx reads it. -/
structure EntryData where
  docId : String
  executiveId : String
  targetQty : ℤ
  achQty : ℤ
  cashQty : ℤ
  remarks : String
  editHistory : List EditRecord
deriving DecidableEq

/-- The four form fields of one executive's row (all strings). -/
structure EntryForm where
  target : String
  ach : String
  cash : String
  remarks : String
deriving DecidableEq

/-- Entry.tsx `handleSave`, update branch: the new `editHistory`.
Each field appends only when it differs AND the stored value is
positive (`existing.targetQty !== newTarget && existing.targetQty > 0`,
and likewise for ACH and Cash), in the fixed order Target, ACH, Cash. -/
def ownerNewHistory (existing : EntryData) (newTarget newAch newCash : ℤ)
    (editor : String) (now : ℤ) : List EditRecord :=
  let h0 := existing.editHistory
  let h1 :=
    if existing.targetQty ≠ newTarget ∧ existing.targetQty > 0 then
      h0 ++ [⟨"Target", existing.targetQty, newTarget, now, editor⟩]
    else h0
  let h2 :=
    if existing.achQty ≠ newAch ∧ existing.achQty > 0 then
      h1 ++ [⟨"ACH", existing.achQty, newAch, now, editor⟩]
    else h1
  if existing.cashQty ≠ newCash ∧ existing.cashQty > 0 then
    h2 ++ [⟨"Cash", existing.cashQty, newCash, now, editor⟩]
  else h2

/-- Entry.tsx `handleSave`, update branch: the updated entry written
back (quantities coerced with `parseInt(x) || 0`). -/
def ownerHandleSave (existing : EntryData) (form : EntryForm)
    (editor : String) (now : ℤ) : EntryData :=
  let newTarget := parseIntOr0 form.target
  let newAch := parseIntOr0 form.ach
  let newCash := parseIntOr0 form.cash
  { existing with
    targetQty := newTarget
    achQty := newAch
    cashQty := newCash
    remarks := form.remarks
    editHistory := ownerNewHistory existing newTarget newAch newCash editor now }

/-- A collection row as Admin.tsx reads it. -/
structure CollectionRow where
  id : String
  date : String
  branchId : String
  branchName : String
  executiveId : String
  executiveName : String
  targetQty : ℤ
  achQty : ℤ
  cashQty : ℤ
  remarks : String
  editHistory : List EditRecord
deriving DecidableEq

/-- Admin.tsx `handleSaveEdit`: the new `editHistory`. Each field
appends whenever it differs (including transitions from zero), in the
fixed order Target, ACH, Cash; the editor identity is
`userEmail + ' (Admin)'`. -/
def adminNewHistory (row : CollectionRow) (newTarget newAch newCash : ℤ)
    (userEmail : String) (now : ℤ) : List EditRecord :=
  let h0 := row.editHistory
  let h1 :=
    if row.targetQty ≠ newTarget then
      h0 ++ [⟨"Target", row.targetQty, newTarget, now, userEmail ++ " (Admin)"⟩]
    else h0
  let h2 :=
    if row.achQty ≠ newAch then
      h1 ++ [⟨"ACH", row.achQty, newAch, now, userEmail ++ " (Admin)"⟩]
    else h1
  if row.cashQty ≠ newCash then
    h2 ++ [⟨"Cash", row.cashQty, newCash, now, userEmail ++ " (Admin)"⟩]
  else h2

/-- Admin.tsx `handleSaveEdit`: the updated row written back
(quantities coerced with `parseInt(x) || 0`, remarks taken verbatim). -/
def adminHandleSaveEdit (row : CollectionRow) (form : EntryForm)
    (userEmail : String) (now : ℤ) : CollectionRow :=
  let newTarget := parseIntOr0 form.target
  let newAch := parseIntOr0 form.ach
  let newCash := parseIntOr0 form.cash
  { row with
    targetQty := newTarget
    achQty := newAch
    cashQty := newCash
    remarks := form.remarks
    editHistory := adminNewHistory row newTarget newAch newCash userEmail now }

/-! ## Lowest performers (src/pages/Admin.tsx getLowestPerformers) -/

/-- The per-executive accumulator of `getLowestPerformers`. -/
structure ExecStat where
  name : String
  branch : String
  totalTarget : ℤ
  totalAch : ℤ
  days : ℤ
deriving DecidableEq

/-- JS `Map.get`: lookup by key in an insertion-ordered association
list. -/
def mapGet : List (String × ExecStat) → String → Option ExecStat
  | [], _ => none
  | (k', v') :: rest, k => if k' = k then some v' else mapGet rest k

/-- JS `Map.set`: replace in place when the key is present, else append
(insertion order preserved). -/
def mapSet (m : List (String × ExecStat)) (k : String) (v : ExecStat) :
    List (String × ExecStat) :=
  match m with
  | [] => [(k, v)]
  | (k', v') :: rest =>
    if k' = k then (k, v) :: rest else (k', v') :: mapSet rest k v

/-- One step of the `last3DaysData.forEach` accumulation: read the
current stat for the row's executive (or a zeroed one), add the row's
target and ACH and bump the day count. -/
def accumStep (m : List (String × ExecStat)) (row : CollectionRow) :
    List (String × ExecStat) :=
  let current := (mapGet m row.executiveId).getD
    ⟨row.executiveName, row.branchName, 0, 0, 0⟩
  mapSet m row.executiveId
    ⟨row.executiveName, row.branchName,
     current.totalTarget + row.targetQty,
     current.totalAch + row.achQty,
     current.days + 1⟩

/-- The `execStats` Map after the `last3DaysData.forEach` accumulation:
per executive id, running sums of target and ACH and a day count, with
the name and branch of the latest row seen. -/
def accumStats (rows : List CollectionRow) : List (String × ExecStat) :=
  rows.foldl accumStep []

/-- The rows of the window belonging to one executive id. -/
def rowsFor (rows : List CollectionRow) (k : String) : List CollectionRow :=
  rows.filter (fun r => r.executiveId = k)

/-- One executive's cumulative target over the window. -/
def targetSumFor (rows : List CollectionRow) (k : String) : ℤ :=
  ((rowsFor rows k).map (fun r => r.targetQty)).sum

/-- One executive's cumulative ACH over the window. -/
def achSumFor (rows : List CollectionRow) (k : String) : ℤ :=
  ((rowsFor rows k).map (fun r => r.achQty)).sum

/-- A ranked executive: the accumulated stat together with
`avgPercent = (totalAch / totalTarget) * 100`. -/
structure Performer where
  stat : ExecStat
  avgPercent : ℚ
deriving DecidableEq

/-- Pipeline `Array.from(execStats.values()).filter(e => e.totalTarget > 0)
.map(e => ({...e, avgPercent}))`: the unsorted performer list. -/
def performersOf (rows : List CollectionRow) : List Performer :=
  (((accumStats rows).map (fun p => p.2)).filter
      (fun e => e.totalTarget > 0)).map
    (fun e => ⟨e, (e.totalAch : ℚ) / (e.totalTarget : ℚ) * 100⟩)

/-- Sorting `.sort((a, b) => a.avgPercent - b.avgPercent)`: JS sort is stable,
modelled by a stable merge sort on `avgPercent`. -/
def sortedPerformers (rows : List CollectionRow) : List Performer :=
  (performersOf rows).mergeSort (fun a b => decide (a.avgPercent ≤ b.avgPercent))

/-- Function `getLowestPerformers` with the slice bound as a parameter (the
Admin page calls it with n = 10). -/
def getLowestPerformers (rows : List CollectionRow) (n : ℕ) : List Performer :=
  (sortedPerformers rows).take n

/-! ## Export projection and filenames (src/pages/Admin.tsx
handleExport / exportToExcel, src/utils/excel.ts generateFilename) -/

/-- A spreadsheet cell: either a string or a numeric value. -/
inductive Cell where
  | str (s : String)
  | num (n : ℤ)
deriving DecidableEq

/-- One element of `exportData` built in `handleExport`. -/
structure ExportRow where
  date : String
  branchName : String
  executiveName : String
  targetQty : ℤ
  achQty : ℤ
  cashQty : ℤ
  balance : ℤ
  achievementPercent : ℚ
deriving DecidableEq

/-- Projection of `handleExport`, per row: balance and the zero-guarded
achievement percent. -/
def exportRowOf (row : CollectionRow) : ExportRow :=
  { date := row.date
    branchName := row.branchName
    executiveName := row.executiveName
    targetQty := row.targetQty
    achQty := row.achQty
    cashQty := row.cashQty
    balance := row.targetQty - row.achQty
    achievementPercent :=
      if row.targetQty > 0 then (row.achQty : ℚ) / (row.targetQty : ℚ) * 100 else 0 }

/-- Row of `exportToExcel`'s `worksheetData` (Admin.tsx local version):
the fixed key order Date, Branch, Executive, Target, ACH, Cash,
Balance, Achievement %, with the percent pre-formatted to one decimal
place and a trailing `%`. -/
def worksheetRow (r : ExportRow) : List (String × Cell) :=
  [("Date", Cell.str r.date),
   ("Branch", Cell.str r.branchName),
   ("Executive", Cell.str r.executiveName),
   ("Target", Cell.num r.targetQty),
   ("ACH", Cell.num r.achQty),
   ("Cash", Cell.num r.cashQty),
   ("Balance", Cell.num r.balance),
   ("Achievement %", Cell.str (toFixed1 r.achievementPercent ++ "%"))]

/-- The whole worksheet produced for a list of collection rows. -/
def exportWorksheet (rows : List CollectionRow) : List (List (String × Cell)) :=
  (rows.map exportRowOf).map worksheetRow

/-- Month index (1–12) to the JS `toLocaleString('default',
{month:'short'})` name. -/
def monthShortName : ℕ → String
  | 1 => "Jan"
  | 2 => "Feb"
  | 3 => "Mar"
  | 4 => "Apr"
  | 5 => "May"
  | 6 => "Jun"
  | 7 => "Jul"
  | 8 => "Aug"
  | 9 => "Sep"
  | 10 => "Oct"
  | 11 => "Nov"
  | 12 => "Dec"
  | _ => ""

/-- Split a character list on `'-'` separators. -/
def splitDash : List Char → List (List Char)
  | [] => [[]]
  | c :: rest =>
    if c = '-' then [] :: splitDash rest
    else
      match splitDash rest with
      | [] => [[c]]
      | g :: gs => (c :: g) :: gs

/-- All-digit check for one non-empty date component. -/
def allDigits (cs : List Char) : Bool :=
  cs ≠ [] ∧ cs.all Char.isDigit

/-- Parse an ISO `YYYY-MM-DD` string into (year, month, day), as JS
`new Date(s)` does on the date strings this app passes around; `none`
models an invalid date. -/
def parseISOdate (s : String) : Option (ℕ × ℕ × ℕ) :=
  match splitDash s.data with
  | [y, m, d] =>
    if allDigits y ∧ allDigits m ∧ allDigits d ∧
        1 ≤ digitsToNat m ∧ digitsToNat m ≤ 12 then
      some (digitsToNat y, digitsToNat m, digitsToNat d)
    else none
  | _ => none

/-- Function `generateFilename` from src/utils/excel.ts: daily label when the
end date is missing or equal to the start, monthly label when both
dates parse into the same month and year, otherwise a range label
(also the fallback when a date does not parse, mirroring the NaN
comparisons). -/
def generateFilename (startDate : String) (endDate : Option String) : String :=
  match endDate with
  | none => "Daily_Collection_" ++ startDate
  | some e =>
    if startDate = e then "Daily_Collection_" ++ startDate
    else
      match parseISOdate startDate, parseISOdate e with
      | some (sy, sm, _), some (ey, em, _) =>
        if sm = em ∧ sy = ey then
          "Monthly_Collection_" ++ monthShortName sm ++ "_" ++ toString sy
        else "Collection_" ++ startDate ++ "_to_" ++ e
      | _, _ => "Collection_" ++ startDate ++ "_to_" ++ e

/-- The branch-name filename part of `handleExport`:
`selectedBranch === 'all' ? '' : '_' + (branchList.find(...)?.name || '')`. -/
def exportBranchPart (selectedBranch : String)
    (branchList : List (String × String)) : String :=
  if selectedBranch = "all" then ""
  else "_" ++ (((branchList.find? (fun b => b.1 = selectedBranch)).map
    (fun b => b.2)).getD "")

/-- The filename `handleExport` actually passes to `exportToExcel`:
a daily label when the window is a single day, otherwise a range
label — there is no monthly case here. -/
def handleExportFilename (selectedBranch : String)
    (branchList : List (String × String)) (startDate endDate : String) : String :=
  let bn := exportBranchPart selectedBranch branchList
  if startDate = endDate then "Daily_Collection" ++ bn ++ "_" ++ startDate
  else "Collection" ++ bn ++ "_" ++ startDate ++ "_to_" ++ endDate

/-! ## Helper lemmas -/

/-- The owner-path history builder in appended form: the prior history
followed by at most one record per field, in the fixed order Target,
ACH, Cash. -/
theorem ownerNewHistory_eq (existing : EntryData) (nt na nc : ℤ)
    (editor : String) (now : ℤ) :
    ownerNewHistory existing nt na nc editor now =
      existing.editHistory ++
        ((if existing.targetQty ≠ nt ∧ existing.targetQty > 0 then
            [⟨"Target", existing.targetQty, nt, now, editor⟩] else []) ++
         (if existing.achQty ≠ na ∧ existing.achQty > 0 then
            [⟨"ACH", existing.achQty, na, now, editor⟩] else []) ++
         (if existing.cashQty ≠ nc ∧ existing.cashQty > 0 then
            [⟨"Cash", existing.cashQty, nc, now, editor⟩] else [])) := by
  unfold ownerNewHistory
  split_ifs <;> simp

/-- The admin-path history builder in appended form. -/
theorem adminNewHistory_eq (row : CollectionRow) (nt na nc : ℤ)
    (userEmail : String) (now : ℤ) :
    adminNewHistory row nt na nc userEmail now =
      row.editHistory ++
        ((if row.targetQty ≠ nt then
            [⟨"Target", row.targetQty, nt, now, userEmail ++ " (Admin)"⟩] else []) ++
         (if row.achQty ≠ na then
            [⟨"ACH", row.achQty, na, now, userEmail ++ " (Admin)"⟩] else []) ++
         (if row.cashQty ≠ nc then
            [⟨"Cash", row.cashQty, nc, now, userEmail ++ " (Admin)"⟩] else [])) := by
  unfold adminNewHistory
  split_ifs <;> simp

/-- Totality of `lexLe`. -/
theorem lexLe_total : ∀ as bs : List Char, (lexLe as bs || lexLe bs as) = true := by
  intro as
  induction as with
  | nil =>
    intro bs
    simp [lexLe]
  | cons a as ih =>
    intro bs
    cases bs with
    | nil => simp [lexLe]
    | cons b bs =>
      simp only [lexLe]
      rcases lt_trichotomy a b with h | h | h
      · simp [h]
      · simp [h, lt_irrefl, ih bs]
      · simp [h, not_lt_of_gt h]

/-- Transitivity of `lexLe`. -/
theorem lexLe_trans : ∀ as bs cs : List Char,
    lexLe as bs = true → lexLe bs cs = true → lexLe as cs = true := by
  intro as
  induction as with
  | nil =>
    intro bs cs _ _
    simp [lexLe]
  | cons a as ih =>
    intro bs cs hab hbc
    cases bs with
    | nil => simp [lexLe] at hab
    | cons b bs =>
      cases cs with
      | nil => simp [lexLe] at hbc
      | cons c cs =>
        simp only [lexLe] at *
        rcases lt_trichotomy a b with h1 | h1 | h1
        · rcases lt_trichotomy b c with h2 | h2 | h2
          · simp [h1.trans h2]
          · subst h2
            simp [h1]
          · simp [h2, not_lt_of_gt h2] at hbc
        · subst h1
          rcases lt_trichotomy a c with h2 | h2 | h2
          · simp [h2]
          · subst h2
            simp [lt_irrefl] at *
            exact ih _ _ hab hbc
          · simp [h2, not_lt_of_gt h2] at hbc
        · simp [h1, not_lt_of_gt h1] at hab

/-- Lookup after an insertion-ordered update. -/
theorem mapGet_mapSet (m : List (String × ExecStat)) (k : String) (v : ExecStat)
    (q : String) :
    mapGet (mapSet m k v) q = if q = k then some v else mapGet m q := by
  induction m with
  | nil =>
    by_cases h : q = k
    · subst h
      simp [mapSet, mapGet]
    · simp [mapSet, mapGet, h, Ne.symm h]
  | cons hd tl ih =>
    obtain ⟨k', v'⟩ := hd
    by_cases hk : k' = k
    · subst hk
      by_cases hq : q = k'
      · subst hq
        simp [mapSet, mapGet]
      · simp [mapSet, mapGet, hq, Ne.symm hq]
    · by_cases hq : q = k'
      · subst hq
        simp [mapSet, mapGet, hk, Ne.symm (fun h => hk h.symm), ih]
      · simp [mapSet, mapGet, hk, Ne.symm hq, ih]

/-- The accumulated totals over a fold, relative to any starting map:
for every key, the target and ACH components are the starting values
plus the sums over the rows carrying that key. -/
theorem accum_totals_go (rows : List CollectionRow) :
    ∀ (m : List (String × ExecStat)) (k : String),
    (mapGet (rows.foldl accumStep m) k).map (fun e => (e.totalTarget, e.totalAch)) =
      (match mapGet m k with
       | some e => some (e.totalTarget + targetSumFor rows k,
                         e.totalAch + achSumFor rows k)
       | none => if rowsFor rows k = [] then none
                 else some (targetSumFor rows k, achSumFor rows k)) := by
  induction rows with
  | nil =>
    intro m k
    cases hg : mapGet m k <;>
      simp [hg, targetSumFor, achSumFor, rowsFor]
  | cons r rest ih =>
    intro m k
    rw [List.foldl_cons, ih]
    by_cases hk : k = r.executiveId
    · subst hk
      have hstep : mapGet (accumStep m r) r.executiveId =
          some ⟨r.executiveName, r.branchName,
            ((mapGet m r.executiveId).getD
              ⟨r.executiveName, r.branchName, 0, 0, 0⟩).totalTarget + r.targetQty,
            ((mapGet m r.executiveId).getD
              ⟨r.executiveName, r.branchName, 0, 0, 0⟩).totalAch + r.achQty,
            ((mapGet m r.executiveId).getD
              ⟨r.executiveName, r.branchName, 0, 0, 0⟩).days + 1⟩ := by
        rw [accumStep, mapGet_mapSet, if_pos rfl]
      have hfil : rowsFor (r :: rest) r.executiveId =
          r :: rowsFor rest r.executiveId := by
        simp [rowsFor, List.filter_cons]
      rw [hstep]
      cases hg : mapGet m r.executiveId with
      | some e =>
        simp only [hg, Option.getD_some]
        simp [targetSumFor, achSumFor, hfil]
        omega
      | none =>
        simp only [hg, Option.getD_none]
        rw [if_neg (by simp [hfil])]
        simp [targetSumFor, achSumFor, hfil]
    · have hstep : mapGet (accumStep m r) k = mapGet m k := by
        rw [accumStep, mapGet_mapSet, if_neg hk]
      have hkr : ¬ r.executiveId = k := fun h => hk h.symm
      have hfil : rowsFor (r :: rest) k = rowsFor rest k := by
        simp [rowsFor, List.filter_cons, hkr]
      rw [hstep]
      cases hg : mapGet m k <;>
        simp [hg, targetSumFor, achSumFor, hfil]

/-- Totals read out of the accumulated map are the per-executive sums
over the window. -/
theorem accumStats_totals (rows : List CollectionRow) (k : String) (e : ExecStat)
    (h : mapGet (accumStats rows) k = some e) :
    e.totalTarget = targetSumFor rows k ∧ e.totalAch = achSumFor rows k := by
  have hgo := accum_totals_go rows [] k
  rw [accumStats] at h
  rw [h] at hgo
  have hnone : mapGet ([] : List (String × ExecStat)) k = none := rfl
  rw [hnone] at hgo
  simp at hgo
  exact ⟨hgo.2.1, hgo.2.2⟩

/-- Updated map keys: unchanged when the key is present, the key
appended when absent. -/
theorem mapSet_keys (m : List (String × ExecStat)) (k : String) (v : ExecStat) :
    (mapSet m k v).map Prod.fst =
      if k ∈ m.map Prod.fst then m.map Prod.fst else m.map Prod.fst ++ [k] := by
  induction m with
  | nil => simp [mapSet]
  | cons hd tl ih =>
    obtain ⟨k', v'⟩ := hd
    by_cases hk : k' = k
    · subst hk
      simp [mapSet]
    · have hkk : ¬ k = k' := fun h => hk h.symm
      simp only [mapSet, if_neg hk, List.map_cons, ih]
      by_cases hm : k ∈ tl.map Prod.fst <;> simp [hm, hkk]

/-- The accumulated map's keys are distinct. -/
theorem accumStats_keys_nodup (rows : List CollectionRow) :
    ((accumStats rows).map Prod.fst).Nodup := by
  suffices h : ∀ m : List (String × ExecStat), (m.map Prod.fst).Nodup →
      ((rows.foldl accumStep m).map Prod.fst).Nodup by
    exact h [] (by simp)
  induction rows with
  | nil =>
    intro m hm
    simpa using hm
  | cons r rest ih =>
    intro m hm
    rw [List.foldl_cons]
    refine ih _ ?_
    rw [accumStep, mapSet_keys]
    by_cases hmem : r.executiveId ∈ m.map Prod.fst
    · simpa [hmem] using hm
    · rw [if_neg hmem]
      simp [List.nodup_append, hm, hmem]

/-- With distinct keys, association-list membership determines the
lookup. -/
theorem mapGet_of_mem (m : List (String × ExecStat))
    (hnd : (m.map Prod.fst).Nodup) (k : String) (e : ExecStat)
    (hm : (k, e) ∈ m) : mapGet m k = some e := by
  induction m with
  | nil => simp at hm
  | cons hd tl ih =>
    obtain ⟨k', v'⟩ := hd
    simp only [List.map_cons, List.nodup_cons] at hnd
    rcases List.mem_cons.mp hm with heq | htl
    · injection heq with h1 h2
      subst h1
      subst h2
      simp [mapGet]
    · have hk : k' ≠ k := by
        intro hkk
        exact hnd.1 (by rw [hkk]; exact List.mem_map_of_mem Prod.fst htl)
      simp only [mapGet, if_neg hk]
      exact ih hnd.2 htl

/-- Ties in `avgPercent` keep their input order through the stable
sort: filtering the sorted performer list at any fixed percent value
gives exactly the filter of the unsorted list. -/
theorem sortedPerformers_ties (rows : List CollectionRow) (q : ℚ) :
    (sortedPerformers rows).filter (fun p => decide (p.avgPercent = q)) =
      (performersOf rows).filter (fun p => decide (p.avgPercent = q)) := by
  have htrans : ∀ a b c : Performer,
      (decide (a.avgPercent ≤ b.avgPercent)) = true →
      (decide (b.avgPercent ≤ c.avgPercent)) = true →
      (decide (a.avgPercent ≤ c.avgPercent)) = true := by
    intro a b c hab hbc
    simp only [decide_eq_true_eq] at *
    exact le_trans hab hbc
  have htotal : ∀ a b : Performer,
      ((decide (a.avgPercent ≤ b.avgPercent)) ||
        (decide (b.avgPercent ≤ a.avgPercent))) = true := by
    intro a b
    rcases le_total a.avgPercent b.avgPercent with h | h <;> simp [h]
  have hpw : ((performersOf rows).filter
      (fun p => decide (p.avgPercent = q))).Pairwise
      (fun a b => (decide (a.avgPercent ≤ b.avgPercent)) = true) := by
    apply List.pairwise_of_forall_mem_list
    intro a ha b hb
    have ha' : a.avgPercent = q := by
      simpa using (List.mem_filter.mp ha).2
    have hb' : b.avgPercent = q := by
      simpa using (List.mem_filter.mp hb).2
    simp [ha', hb']
  have hstable := List.sublist_mergeSort htrans htotal hpw
    (List.filter_sublist (performersOf rows))
  have hfs : ((performersOf rows).filter (fun p => decide (p.avgPercent = q))).Sublist
      ((sortedPerformers rows).filter (fun p => decide (p.avgPercent = q))) := by
    have h2 := List.Sublist.filter (fun p => decide (p.avgPercent = q)) hstable
    rwa [List.filter_eq_self.mpr
      (fun a ha => (List.mem_filter.mp ha).2)] at h2
  have hperm : ((sortedPerformers rows).filter
      (fun p => decide (p.avgPercent = q))).Perm
      ((performersOf rows).filter (fun p => decide (p.avgPercent = q))) :=
    (List.mergeSort_perm (performersOf rows) _).filter _
  exact (hfs.eq_of_length hperm.length_eq.symm).symm

/-! ## Claim theorems -/

/-- C3: in the entry-owner save path, each tracked field appends an
EditRecord exactly when the stored value differs from the incoming one
AND the stored value is nonzero; a field stored as 0 appends nothing
(creation, not edit).  Stored quantities are the data model's
non-negative integers, so nonzero coincides with the code's `> 0`
gate. -/
theorem owner_edit_gating (existing : EntryData) (nt na nc : ℤ)
    (editor : String) (now : ℤ)
    (ht : 0 ≤ existing.targetQty) (ha : 0 ≤ existing.achQty)
    (hc : 0 ≤ existing.cashQty) :
    ownerNewHistory existing nt na nc editor now =
      existing.editHistory ++
        ((if existing.targetQty ≠ nt ∧ existing.targetQty ≠ 0 then
            [⟨"Target", existing.targetQty, nt, now, editor⟩] else []) ++
         (if existing.achQty ≠ na ∧ existing.achQty ≠ 0 then
            [⟨"ACH", existing.achQty, na, now, editor⟩] else []) ++
         (if existing.cashQty ≠ nc ∧ existing.cashQty ≠ 0 then
            [⟨"Cash", existing.cashQty, nc, now, editor⟩] else [])) := by
  rw [ownerNewHistory_eq]
  have et : (existing.targetQty ≠ nt ∧ existing.targetQty > 0) ↔
      (existing.targetQty ≠ nt ∧ existing.targetQty ≠ 0) := by
    constructor <;> rintro ⟨h1, h2⟩ <;> exact ⟨h1, by omega⟩
  have ea : (existing.achQty ≠ na ∧ existing.achQty > 0) ↔
      (existing.achQty ≠ na ∧ existing.achQty ≠ 0) := by
    constructor <;> rintro ⟨h1, h2⟩ <;> exact ⟨h1, by omega⟩
  have ec : (existing.cashQty ≠ nc ∧ existing.cashQty > 0) ↔
      (existing.cashQty ≠ nc ∧ existing.cashQty ≠ 0) := by
    constructor <;> rintro ⟨h1, h2⟩ <;> exact ⟨h1, by omega⟩
  rw [if_congr et rfl rfl, if_congr ea rfl rfl, if_congr ec rfl rfl]

/-- C3 witness: stored target 0 changed to 7 logs nothing, stored ACH 5
changed to 8 logs one record, stored Cash 3 unchanged logs nothing. -/
theorem owner_edit_gating_witness :
    ownerNewHistory ⟨"d1", "e1", 0, 5, 3, "", []⟩ 7 8 3 "mgr@x.com" 99 =
      [⟨"ACH", 5, 8, 99, "mgr@x.com"⟩] := by
  have h := owner_edit_gating ⟨"d1", "e1", 0, 5, 3, "", []⟩ 7 8 3 "mgr@x.com" 99
    (by decide) (by decide) (by decide)
  simpa using h

/-- C4: the administrative-correction path appends one EditRecord per
tracked field exactly when the stored value differs from the incoming
one (including transitions from zero), in the fixed order Target, ACH,
Cash, capturing old value, new value, timestamp and editor identity;
the remark field never contributes a record (the history written by a
save is independent of the remarks field of the form). -/
theorem admin_edit_logging (row : CollectionRow) (form : EntryForm)
    (userEmail : String) (now : ℤ) :
    (∀ nt na nc : ℤ,
      adminNewHistory row nt na nc userEmail now =
        row.editHistory ++
          ((if row.targetQty ≠ nt then
              [⟨"Target", row.targetQty, nt, now, userEmail ++ " (Admin)"⟩] else []) ++
           (if row.achQty ≠ na then
              [⟨"ACH", row.achQty, na, now, userEmail ++ " (Admin)"⟩] else []) ++
           (if row.cashQty ≠ nc then
              [⟨"Cash", row.cashQty, nc, now, userEmail ++ " (Admin)"⟩] else []))) ∧
    (adminHandleSaveEdit row form userEmail now).editHistory =
      adminNewHistory row (parseIntOr0 form.target) (parseIntOr0 form.ach)
        (parseIntOr0 form.cash) userEmail now ∧
    (∀ r' : String,
      (adminHandleSaveEdit row { form with remarks := r' } userEmail now).editHistory =
        (adminHandleSaveEdit row form userEmail now).editHistory) := by
  refine ⟨fun nt na nc => adminNewHistory_eq row nt na nc userEmail now, rfl, ?_⟩
  intro r'
  rfl

/-- C8: both save paths only ever append to the edit history — the new
`editHistory` starts with the prior history unchanged, in content and
order, with any new records after it. -/
theorem editHistory_append_only (existing : EntryData) (row : CollectionRow)
    (form : EntryForm) (nt na nc : ℤ) (u : String) (now : ℤ) :
    (∃ t, ownerNewHistory existing nt na nc u now = existing.editHistory ++ t) ∧
    (∃ t, adminNewHistory row nt na nc u now = row.editHistory ++ t) ∧
    (∃ t, (ownerHandleSave existing form u now).editHistory =
      existing.editHistory ++ t) ∧
    (∃ t, (adminHandleSaveEdit row form u now).editHistory =
      row.editHistory ++ t) := by
  exact ⟨⟨_, ownerNewHistory_eq existing nt na nc u now⟩,
    ⟨_, adminNewHistory_eq row nt na nc u now⟩,
    ⟨_, ownerNewHistory_eq existing _ _ _ u now⟩,
    ⟨_, adminNewHistory_eq row _ _ _ u now⟩⟩

/-- C10: both save paths coerce every numeric form field with
`parseInt(x) || 0` before comparing or writing, so an empty or
non-numeric value is treated as exactly 0: it is saved as 0, counts as
no change against a stored 0 (no record appended in either path), and
counts as a change to 0 against a nonzero stored value (nonzero means
positive for the owner path, whose stored quantities are the data
model's non-negative integers).  The coercion is a total function, so
a save never fails on malformed numeric input. -/
theorem parseInt_coercion_behavior :
    (parseIntOr0 "" = 0 ∧ parseIntOr0 "abc" = 0) ∧
    (∀ s, parseIntJS s = none → parseIntOr0 s = 0) ∧
    (∀ (existing : EntryData) (form : EntryForm) (u : String) (now : ℤ),
      (ownerHandleSave existing form u now).targetQty = parseIntOr0 form.target ∧
      (ownerHandleSave existing form u now).achQty = parseIntOr0 form.ach ∧
      (ownerHandleSave existing form u now).cashQty = parseIntOr0 form.cash) ∧
    (∀ (row : CollectionRow) (form : EntryForm) (u : String) (now : ℤ),
      (adminHandleSaveEdit row form u now).targetQty = parseIntOr0 form.target ∧
      (adminHandleSaveEdit row form u now).achQty = parseIntOr0 form.ach ∧
      (adminHandleSaveEdit row form u now).cashQty = parseIntOr0 form.cash) ∧
    (∀ (existing : EntryData) (form : EntryForm) (u : String) (now : ℤ),
      existing.targetQty = 0 → existing.achQty = 0 → existing.cashQty = 0 →
      parseIntJS form.target = none → parseIntJS form.ach = none →
      parseIntJS form.cash = none →
      (ownerHandleSave existing form u now).editHistory = existing.editHistory) ∧
    (∀ (row : CollectionRow) (form : EntryForm) (u : String) (now : ℤ),
      row.targetQty = 0 → row.achQty = 0 → row.cashQty = 0 →
      parseIntJS form.target = none → parseIntJS form.ach = none →
      parseIntJS form.cash = none →
      (adminHandleSaveEdit row form u now).editHistory = row.editHistory) ∧
    (∀ (row : CollectionRow) (u : String) (now : ℤ), row.targetQty ≠ 0 →
      adminNewHistory row 0 row.achQty row.cashQty u now =
        row.editHistory ++ [⟨"Target", row.targetQty, 0, now, u ++ " (Admin)"⟩]) ∧
    (∀ (existing : EntryData) (u : String) (now : ℤ),
      existing.targetQty ≠ 0 → 0 ≤ existing.targetQty →
      ownerNewHistory existing 0 existing.achQty existing.cashQty u now =
        existing.editHistory ++ [⟨"Target", existing.targetQty, 0, now, u⟩]) := by
  refine ⟨⟨rfl, rfl⟩, ?_, ?_, ?_, ?_, ?_, ?_, ?_⟩
  · intro s h
    simp [parseIntOr0, h]
  · intro existing form u now
    exact ⟨rfl, rfl, rfl⟩
  · intro row form u now
    exact ⟨rfl, rfl, rfl⟩
  · intro existing form u now h1 h2 h3 p1 p2 p3
    show ownerNewHistory existing (parseIntOr0 form.target) (parseIntOr0 form.ach)
      (parseIntOr0 form.cash) u now = existing.editHistory
    rw [ownerNewHistory_eq]
    simp [parseIntOr0, p1, p2, p3, h1, h2, h3]
  · intro row form u now h1 h2 h3 p1 p2 p3
    show adminNewHistory row (parseIntOr0 form.target) (parseIntOr0 form.ach)
      (parseIntOr0 form.cash) u now = row.editHistory
    rw [adminNewHistory_eq]
    simp [parseIntOr0, p1, p2, p3, h1, h2, h3]
  · intro row u now h
    rw [adminNewHistory_eq]
    simp [h]
  · intro existing u now h h0
    rw [ownerNewHistory_eq]
    have : existing.targetQty ≠ 0 ∧ existing.targetQty > 0 := ⟨h, by omega⟩
    simp [this.1, this.2]

/-- C5: `summarizeWindow` totals are plain sums over all supplied
entries (none excluded), balance = totalTarget − totalAchieved, and
the achievement percent is 0 when the total target is 0 and
100·A/T otherwise (targets are the data model's non-negative
integers). -/
theorem summarizeWindow_contract (entries : List DailyEntryRow)
    (hT : ∀ e ∈ entries, 0 ≤ e.targetQty) :
    (summarizeWindow entries).totalTarget =
      (entries.map (fun e => e.targetQty)).sum ∧
    (summarizeWindow entries).totalAch =
      (entries.map (fun e => e.achQty)).sum ∧
    (summarizeWindow entries).totalCash =
      (entries.map (fun e => e.cashQty)).sum ∧
    (summarizeWindow entries).balance =
      (summarizeWindow entries).totalTarget - (summarizeWindow entries).totalAch ∧
    ((summarizeWindow entries).totalTarget = 0 →
      (summarizeWindow entries).achievementPercent = 0) ∧
    ((summarizeWindow entries).totalTarget ≠ 0 →
      (summarizeWindow entries).achievementPercent =
        100 * ((summarizeWindow entries).totalAch : ℚ) /
          ((summarizeWindow entries).totalTarget : ℚ)) := by
  have foldl_sum : ∀ (f : DailyEntryRow → ℤ) (l : List DailyEntryRow) (a : ℤ),
      l.foldl (fun sum d => sum + f d) a = a + (l.map f).sum := by
    intro f l
    induction l with
    | nil => simp
    | cons hd tl ih =>
      intro a
      simp [ih, add_assoc]
  have ht : (summarizeWindow entries).totalTarget =
      (entries.map (fun e => e.targetQty)).sum := by
    simpa using foldl_sum (fun e => e.targetQty) entries 0
  have hpos : 0 ≤ (summarizeWindow entries).totalTarget := by
    rw [ht]
    exact List.sum_nonneg (by simpa using hT)
  refine ⟨ht, by simpa using foldl_sum (fun e => e.achQty) entries 0,
    by simpa using foldl_sum (fun e => e.cashQty) entries 0, rfl, ?_, ?_⟩
  · intro h0
    show (if (summarizeWindow entries).totalTarget > 0 then _ else (0 : ℚ)) = 0
    rw [if_neg (by omega)]
  · intro hne
    show (if (summarizeWindow entries).totalTarget > 0 then
        ((summarizeWindow entries).totalAch : ℚ) /
          ((summarizeWindow entries).totalTarget : ℚ) * 100 else (0 : ℚ)) = _
    rw [if_pos (by omega)]
    ring

/-- C5 witness: one entry with target 10, achieved 4, cash 2. -/
theorem summarizeWindow_contract_witness :
    (summarizeWindow [⟨"e1", "E1", 10, 4, 2⟩]).balance = 6 ∧
    (summarizeWindow [⟨"e1", "E1", 10, 4, 2⟩]).achievementPercent = 40 := by
  have h := summarizeWindow_contract [⟨"e1", "E1", 10, 4, 2⟩] (by decide)
  refine ⟨?_, ?_⟩
  · rw [h.2.2.2.1, h.1, h.2.1]
    decide
  · rw [h.2.2.2.2.2 (by rw [h.1]; decide), h.1, h.2.1]
    norm_num

/-- C1 counterexample: at p = 90 the StatCard sites classify medium
(yellow), exactly as the spec's classification does, but the Telegram
report marker for a branch at exactly 90% is 🟢 — the same marker given
to 95% (spec-high) and not the 🟡 given to 80% (spec-medium).  So the
boundary choice is NOT reproduced at the report-marker site: there 90
falls in the top class. -/
theorem threshold_sites_disagree_at_90 :
    getAchievementColor 90 = "text-yellow-600" ∧
    getAchievementColor 95 = "text-green-600" ∧
    getAchievementColor 80 = "text-yellow-600" ∧
    specClassify 90 = ThreeWay.medium ∧
    specClassify 95 = ThreeWay.high ∧
    specClassify 80 = ThreeWay.medium ∧
    branchEmoji ⟨"A", true, 100, 90, 1⟩ = "🟢" ∧
    branchEmoji ⟨"C", true, 100, 95, 1⟩ = "🟢" ∧
    branchEmoji ⟨"B", true, 100, 80, 1⟩ = "🟡" ∧
    branchEmoji ⟨"A", true, 100, 90, 1⟩ ≠ branchEmoji ⟨"B", true, 100, 80, 1⟩ := by
  have hA : summaryPercentNum ⟨"A", true, 100, 90, 1⟩ = 90 := by
    norm_num [summaryPercentNum, roundAway]
  have hC : summaryPercentNum ⟨"C", true, 100, 95, 1⟩ = 95 := by
    norm_num [summaryPercentNum, roundAway]
  have hB : summaryPercentNum ⟨"B", true, 100, 80, 1⟩ = 80 := by
    norm_num [summaryPercentNum, roundAway]
  refine ⟨rfl, rfl, rfl, rfl, rfl, rfl, ?_, ?_, ?_, ?_⟩ <;>
    simp [branchEmoji, hA, hB, hC]

/-- C1 amended: the StatCard color sites implement the spec thresholds
exactly — low iff p < 70, medium iff 70 ≤ p ≤ 90 (both endpoints
medium), high iff p > 90.  The Telegram report marker instead
classifies the percent rounded to an integer r (`Number` of the
`toFixed(0)` string): 🟢 iff r ≥ 90, 🟡 iff 70 ≤ r < 90, 🔴 iff
r < 70 — so p = 70 is medium at every site, but p = 90 (and any p
rounding to 90 or more) gets the top marker in reports. -/
theorem threshold_classification_sites :
    (∀ p : ℚ, getAchievementColor p = "text-red-600" ↔
      specClassify p = ThreeWay.low) ∧
    (∀ p : ℚ, getAchievementColor p = "text-yellow-600" ↔
      specClassify p = ThreeWay.medium) ∧
    (∀ p : ℚ, getAchievementColor p = "text-green-600" ↔
      specClassify p = ThreeWay.high) ∧
    (∀ p : ℚ, getAchievementBgColor p = "bg-red-100 text-red-800" ↔
      specClassify p = ThreeWay.low) ∧
    (∀ p : ℚ, getAchievementBgColor p = "bg-yellow-100 text-yellow-800" ↔
      specClassify p = ThreeWay.medium) ∧
    (∀ p : ℚ, getAchievementBgColor p = "bg-green-100 text-green-800" ↔
      specClassify p = ThreeWay.high) ∧
    (∀ p : ℚ, specClassify p = ThreeWay.low ↔ p < 70) ∧
    (∀ p : ℚ, specClassify p = ThreeWay.medium ↔ 70 ≤ p ∧ p ≤ 90) ∧
    (∀ p : ℚ, specClassify p = ThreeWay.high ↔ 90 < p) ∧
    (∀ s : BranchSummary, branchEmoji s = "🟢" ↔ 90 ≤ summaryPercentNum s) ∧
    (∀ s : BranchSummary, branchEmoji s = "🟡" ↔
      70 ≤ summaryPercentNum s ∧ summaryPercentNum s < 90) ∧
    (∀ s : BranchSummary, branchEmoji s = "🔴" ↔ summaryPercentNum s < 70) := by
  have hcol : ∀ p : ℚ, (getAchievementColor p = "text-red-600" ↔
        specClassify p = ThreeWay.low) ∧
      (getAchievementColor p = "text-yellow-600" ↔
        specClassify p = ThreeWay.medium) ∧
      (getAchievementColor p = "text-green-600" ↔
        specClassify p = ThreeWay.high) := by
    intro p
    unfold getAchievementColor specClassify
    split_ifs <;> refine ⟨?_, ?_, ?_⟩ <;> decide
  have hbg : ∀ p : ℚ, (getAchievementBgColor p = "bg-red-100 text-red-800" ↔
        specClassify p = ThreeWay.low) ∧
      (getAchievementBgColor p = "bg-yellow-100 text-yellow-800" ↔
        specClassify p = ThreeWay.medium) ∧
      (getAchievementBgColor p = "bg-green-100 text-green-800" ↔
        specClassify p = ThreeWay.high) := by
    intro p
    unfold getAchievementBgColor specClassify
    split_ifs <;> refine ⟨?_, ?_, ?_⟩ <;> decide
  have hspec : ∀ p : ℚ, (specClassify p = ThreeWay.low ↔ p < 70) ∧
      (specClassify p = ThreeWay.medium ↔ 70 ≤ p ∧ p ≤ 90) ∧
      (specClassify p = ThreeWay.high ↔ 90 < p) := by
    intro p
    unfold specClassify
    split_ifs with h1 h2
    · refine ⟨iff_of_true rfl h1, iff_of_false (by decide) ?_,
        iff_of_false (by decide) ?_⟩
      · rintro ⟨hx, _⟩
        linarith
      · intro hx
        linarith
    · refine ⟨iff_of_false (by decide) h1,
        iff_of_true rfl ⟨by linarith, h2⟩, iff_of_false (by decide) ?_⟩
      intro hx
      linarith
    · refine ⟨iff_of_false (by decide) h1, iff_of_false (by decide) ?_,
        iff_of_true rfl (by linarith)⟩
      rintro ⟨_, hx⟩
      exact h2 hx
  have hemo : ∀ s : BranchSummary, (branchEmoji s = "🟢" ↔
        90 ≤ summaryPercentNum s) ∧
      (branchEmoji s = "🟡" ↔
        70 ≤ summaryPercentNum s ∧ summaryPercentNum s < 90) ∧
      (branchEmoji s = "🔴" ↔ summaryPercentNum s < 70) := by
    intro s
    unfold branchEmoji
    split_ifs with h1 h2
    · exact ⟨iff_of_true rfl (by omega), iff_of_false (by decide) (by omega),
        iff_of_false (by decide) (by omega)⟩
    · exact ⟨iff_of_false (by decide) (by omega), iff_of_true rfl (by omega),
        iff_of_false (by decide) (by omega)⟩
    · exact ⟨iff_of_false (by decide) (by omega),
        iff_of_false (by decide) (by omega), iff_of_true rfl (by omega)⟩
  exact ⟨fun p => (hcol p).1, fun p => (hcol p).2.1, fun p => (hcol p).2.2,
    fun p => (hbg p).1, fun p => (hbg p).2.1, fun p => (hbg p).2.2,
    fun p => (hspec p).1, fun p => (hspec p).2.1, fun p => (hspec p).2.2,
    fun s => (hemo s).1, fun s => (hemo s).2.1, fun s => (hemo s).2.2⟩

/-- C6 counterexample: for the same-calendar-month window
2024-05-01..2024-05-31 the filename actually used when exporting
(built inline in `handleExport`) is the generic range label, not the
monthly label — `generateFilename`, which does produce the monthly
label, is not what the export uses. -/
theorem export_filename_no_monthly_case :
    handleExportFilename "all" [] "2024-05-01" "2024-05-31" =
      "Collection_2024-05-01_to_2024-05-31" ∧
    generateFilename "2024-05-01" (some "2024-05-31") =
      "Monthly_Collection_May_2024" ∧
    handleExportFilename "all" [] "2024-05-01" "2024-05-31" ≠
      generateFilename "2024-05-01" (some "2024-05-31") := by
  refine ⟨by decide, by decide, by decide⟩

/-- C6 amended: `generateFilename` implements the daily / monthly /
range derivation the spec describes, but the filename actually used
when exporting is `handleExport`'s own inline derivation, which has
only a daily label (start = end) and a range label (start ≠ end), with
an optional branch-name part; a multi-day window inside one calendar
month therefore gets the range label in the real export. -/
theorem filename_derivation :
    (∀ s, generateFilename s none = "Daily_Collection_" ++ s) ∧
    (∀ s, generateFilename s (some s) = "Daily_Collection_" ++ s) ∧
    (∀ s e sy sm sd ey em ed, s ≠ e →
      parseISOdate s = some (sy, sm, sd) → parseISOdate e = some (ey, em, ed) →
      sm = em → sy = ey →
      generateFilename s (some e) =
        "Monthly_Collection_" ++ monthShortName sm ++ "_" ++ toString sy) ∧
    (∀ s e sy sm sd ey em ed, s ≠ e →
      parseISOdate s = some (sy, sm, sd) → parseISOdate e = some (ey, em, ed) →
      ¬(sm = em ∧ sy = ey) →
      generateFilename s (some e) = "Collection_" ++ s ++ "_to_" ++ e) ∧
    (∀ br bl s, handleExportFilename br bl s s =
      "Daily_Collection" ++ exportBranchPart br bl ++ "_" ++ s) ∧
    (∀ br bl s e, s ≠ e → handleExportFilename br bl s e =
      "Collection" ++ exportBranchPart br bl ++ "_" ++ s ++ "_to_" ++ e) := by
  refine ⟨fun s => rfl, ?_, ?_, ?_, ?_, ?_⟩
  · intro s
    simp [generateFilename]
  · intro s e sy sm sd ey em ed hne hs he hm hy
    simp only [generateFilename, if_neg hne, hs, he]
    rw [if_pos ⟨hm, hy⟩]
  · intro s e sy sm sd ey em ed hne hs he hm
    simp only [generateFilename, if_neg hne, hs, he]
    rw [if_neg hm]
  · intro br bl s
    simp [handleExportFilename]
  · intro br bl s e hne
    simp [handleExportFilename, if_neg hne]

/-- C9: the export projection maps each entry to one worksheet row
with the fixed column order Date, Branch, Executive, Target, ACH,
Cash, Balance, Achievement %, where Balance = target − achieved and
the Achievement % cell is a string formatted to one decimal place with
a trailing `%` (the quantity cells stay numeric), computed with the
zero-target-gives-0 guard (targets are the data model's non-negative
integers). -/
theorem export_projection_shape (rows : List CollectionRow)
    (h : ∀ r ∈ rows, 0 ≤ r.targetQty) :
    exportWorksheet rows = rows.map (fun row =>
      [("Date", Cell.str row.date),
       ("Branch", Cell.str row.branchName),
       ("Executive", Cell.str row.executiveName),
       ("Target", Cell.num row.targetQty),
       ("ACH", Cell.num row.achQty),
       ("Cash", Cell.num row.cashQty),
       ("Balance", Cell.num (row.targetQty - row.achQty)),
       ("Achievement %", Cell.str (toFixed1
         (if row.targetQty = 0 then 0
          else (row.achQty : ℚ) / (row.targetQty : ℚ) * 100) ++ "%"))]) := by
  unfold exportWorksheet
  rw [List.map_map]
  refine List.map_congr_left ?_
  intro row hrow
  have h0 : 0 ≤ row.targetQty := h row hrow
  show worksheetRow (exportRowOf row) = _
  unfold worksheetRow exportRowOf
  by_cases hz : row.targetQty = 0
  · simp [hz]
  · have : row.targetQty > 0 := by omega
    simp [hz, this]

/-- C9 witness: one row, target 10, achieved 4: balance 6, percent
cell "40.0%". -/
theorem export_projection_shape_witness :
    exportWorksheet [⟨"r1", "2024-05-01", "b1", "B", "e1", "E", 10, 4, 2, "", []⟩] =
      [[("Date", Cell.str "2024-05-01"),
        ("Branch", Cell.str "B"),
        ("Executive", Cell.str "E"),
        ("Target", Cell.num 10),
        ("ACH", Cell.num 4),
        ("Cash", Cell.num 2),
        ("Balance", Cell.num 6),
        ("Achievement %", Cell.str "40.0%")]] := by
  have h := export_projection_shape
    [⟨"r1", "2024-05-01", "b1", "B", "e1", "E", 10, 4, 2, "", []⟩]
    (by intro r hr; simp at hr; rw [hr]; decide)
  rw [h]
  have hp : toFixed1 (if (10 : ℤ) = 0 then 0
      else ((4 : ℤ) : ℚ) / ((10 : ℤ) : ℚ) * 100) = "40.0" := by
    norm_num [toFixed1, roundAway]
    decide
  simp only [List.map_cons, List.map_nil]
  rw [show ((10 : ℤ) - 4) = 6 by norm_num, hp]
  decide

set_option maxRecDepth 8000 in
/-- C7: `formatSummaryReport` sorts the branch summaries alphabetically
by name (stably, per the lexicographic model of `localeCompare`),
partitions them into entered and not-entered, computes the overall
totals from the entered set only, and on the two-branch example
[{A, entered, 100/90}, {B, not entered}] renders A at 90/100 (90%), B
under "without Entry", the overall 90/100 at 90.0%, and
"Branches Reported: 1/2". -/
theorem formatSummaryReport_contract :
    (∀ summaries : List BranchSummary, (sortedSummaries summaries).Perm summaries) ∧
    (∀ summaries : List BranchSummary, (sortedSummaries summaries).Pairwise
      (fun a b => strLe a.branchName b.branchName = true)) ∧
    (∀ summaries : List BranchSummary, enteredOf summaries =
      (sortedSummaries summaries).filter (fun s => s.hasEntry)) ∧
    (∀ summaries : List BranchSummary, notEnteredOf summaries =
      (sortedSummaries summaries).filter (fun s => !s.hasEntry)) ∧
    (∀ summaries : List BranchSummary, ∀ s ∈ enteredOf summaries,
      s.hasEntry = true) ∧
    (∀ summaries : List BranchSummary, ∀ s ∈ notEnteredOf summaries,
      s.hasEntry = false) ∧
    (∀ summaries : List BranchSummary, reportTotalTarget summaries =
      ((enteredOf summaries).map (fun s => s.totalTarget)).sum) ∧
    (∀ summaries : List BranchSummary, reportTotalAch summaries =
      ((enteredOf summaries).map (fun s => s.totalAch)).sum) ∧
    formatSummaryReport "2024-05-01"
        [⟨"A", true, 100, 90, 1⟩, ⟨"B", false, 0, 0, 0⟩] =
      "📊 <b>Daily Collection Report</b>\n📅 Date: 2024-05-01\n\n✅ <b>Branches with Entry (1)</b>\n   🟢 A: 90/100 (90%)\n\n❌ <b>Branches without Entry (1)</b>\n   ⚠️ B\n\n📈 <b>Overall Summary</b>\n   Total Target: 100\n   Total ACH: 90\n   Achievement: 90.0%\n   Branches Reported: 1/2" := by
  have foldl_sum : ∀ (f : BranchSummary → ℤ) (l : List BranchSummary) (a : ℤ),
      l.foldl (fun sum s => sum + f s) a = a + (l.map f).sum := by
    intro f l
    induction l with
    | nil => simp
    | cons hd tl ih =>
      intro a
      simp [ih, add_assoc]
  refine ⟨fun summaries => List.mergeSort_perm summaries _,
    fun summaries => @List.sorted_mergeSort BranchSummary
      (fun a b => strLe a.branchName b.branchName)
      (fun a b c hab hbc => lexLe_trans _ _ _ hab hbc)
      (fun a b => lexLe_total _ _) summaries,
    fun summaries => rfl, fun summaries => rfl, ?_, ?_,
    fun summaries => by simpa using foldl_sum (fun s => s.totalTarget) (enteredOf summaries) 0,
    fun summaries => by simpa using foldl_sum (fun s => s.totalAch) (enteredOf summaries) 0,
    ?_⟩
  · intro summaries s hs
    exact (List.mem_filter.mp hs).2
  · intro summaries s hs
    simpa using (List.mem_filter.mp hs).2
  · have hsort : sortedSummaries [⟨"A", true, 100, 90, 1⟩, ⟨"B", false, 0, 0, 0⟩] =
        [⟨"A", true, 100, 90, 1⟩, ⟨"B", false, 0, 0, 0⟩] := by
      apply List.mergeSort_of_sorted
      decide
    have hent : enteredOf [⟨"A", true, 100, 90, 1⟩, ⟨"B", false, 0, 0, 0⟩] =
        [⟨"A", true, 100, 90, 1⟩] := by
      unfold enteredOf
      rw [hsort]
      rfl
    have hnot : notEnteredOf [⟨"A", true, 100, 90, 1⟩, ⟨"B", false, 0, 0, 0⟩] =
        [⟨"B", false, 0, 0, 0⟩] := by
      unfold notEnteredOf
      rw [hsort]
      rfl
    have htt : reportTotalTarget [⟨"A", true, 100, 90, 1⟩, ⟨"B", false, 0, 0, 0⟩] =
        100 := by
      unfold reportTotalTarget
      rw [hent]
      decide
    have hta : reportTotalAch [⟨"A", true, 100, 90, 1⟩, ⟨"B", false, 0, 0, 0⟩] =
        90 := by
      unfold reportTotalAch
      rw [hent]
      decide
    have hstr : summaryPercentStr ⟨"A", true, 100, 90, 1⟩ = "90" := by
      norm_num [summaryPercentStr, toFixed0, roundAway]
      decide
    have hemoA : branchEmoji ⟨"A", true, 100, 90, 1⟩ = "🟢" := by
      have hn : summaryPercentNum ⟨"A", true, 100, 90, 1⟩ = 90 := by
        norm_num [summaryPercentNum, roundAway]
      simp [branchEmoji, hn]
    have hov : (if (100 : ℤ) > 0 then
        toFixed1 (((90 : ℤ) : ℚ) / (((100 : ℤ)) : ℚ) * 100) else "0") = "90.0" := by
      rw [if_pos (by norm_num)]
      norm_num [toFixed1, roundAway]
      decide
    show formatSummaryReport _ _ = _
    unfold formatSummaryReport
    rw [hent, hnot, htt, hta]
    simp only [List.map_cons, List.map_nil]
    rw [hstr, hemoA, hov]
    decide

/-- C2: `getLowestPerformers` groups the window's entries by executive,
computes each returned executive's avgPercent as 100 × (sum of
achieved) / (sum of target) over the accumulated totals (ratio of
sums), never returns an executive whose cumulative target is 0 (every
returned one has positive cumulative target), returns a list sorted
non-decreasing by avgPercent with ties kept in input order (stable
sort), and returns at most n elements. -/
theorem rankLowestPerformers_contract (rows : List CollectionRow) (n : ℕ) :
    (∀ p ∈ getLowestPerformers rows n, p.stat.totalTarget > 0 ∧
      p.avgPercent = 100 * (p.stat.totalAch : ℚ) / (p.stat.totalTarget : ℚ) ∧
      ∃ k, mapGet (accumStats rows) k = some p.stat ∧
        p.stat.totalTarget = targetSumFor rows k ∧
        p.stat.totalAch = achSumFor rows k) ∧
    (getLowestPerformers rows n).Pairwise
      (fun a b => a.avgPercent ≤ b.avgPercent) ∧
    (∀ q : ℚ, (sortedPerformers rows).filter (fun p => decide (p.avgPercent = q)) =
      (performersOf rows).filter (fun p => decide (p.avgPercent = q))) ∧
    (getLowestPerformers rows n).length ≤ n := by
  have htrans : ∀ a b c : Performer,
      (decide (a.avgPercent ≤ b.avgPercent)) = true →
      (decide (b.avgPercent ≤ c.avgPercent)) = true →
      (decide (a.avgPercent ≤ c.avgPercent)) = true := by
    intro a b c hab hbc
    simp only [decide_eq_true_eq] at *
    exact le_trans hab hbc
  have htotal : ∀ a b : Performer,
      ((decide (a.avgPercent ≤ b.avgPercent)) ||
        (decide (b.avgPercent ≤ a.avgPercent))) = true := by
    intro a b
    rcases le_total a.avgPercent b.avgPercent with h | h <;> simp [h]
  refine ⟨?_, ?_, fun q => sortedPerformers_ties rows q, List.length_take_le n _⟩
  · intro p hp
    have hp1 : p ∈ sortedPerformers rows := List.take_subset n _ hp
    have hp2 : p ∈ performersOf rows :=
      (List.mergeSort_perm (performersOf rows) _).mem_iff.mp hp1
    unfold performersOf at hp2
    rcases List.mem_map.mp hp2 with ⟨e, he, rfl⟩
    have he' := List.mem_filter.mp he
    have hpos : e.totalTarget > 0 := by simpa using he'.2
    refine ⟨hpos, by ring, ?_⟩
    rcases List.mem_map.mp he'.1 with ⟨⟨k, e'⟩, hkm, hke⟩
    rcases hke
    have hget : mapGet (accumStats rows) k = some e' :=
      mapGet_of_mem _ (accumStats_keys_nodup rows) _ _ hkm
    exact ⟨k, hget, (accumStats_totals rows k e' hget).1,
      (accumStats_totals rows k e' hget).2⟩
  · have hs := List.sorted_mergeSort htrans htotal (performersOf rows)
    have hs2 : (sortedPerformers rows).Pairwise
        (fun a b => a.avgPercent ≤ b.avgPercent) :=
      hs.imp (fun h => of_decide_eq_true h)
    exact List.Pairwise.sublist (List.take_sublist n _) hs2

end CardTracker
